import Mathlib

/-!
A shallow embedding of the `simple-crawler` repository's core module
(`src/crawler.py`, class `SimpleCrawler`) together with models of the
library functions it calls.

Modelling conventions:

* Python strings are `String` (a `List Char`); `str.strip`, `str.startswith`,
  `str.splitlines`, `str.split` and `' '.join` are re-implemented below on
  `List Char` so that every definition is structurally recursive and
  kernel-computable (`pyStrip`, `pyStartsWith`, `pySplitlines`,
  `splitChar`/`splitTwoSpace`, `joinWith`).  Lean's `Char.isWhitespace`
  (space, tab, CR, LF) stands for Python's whitespace class.
* `urllib.parse.urljoin` / `urlparse` are modelled after CPython's
  `urllib/parse.py` (`urlsplitE`, `urlunsplit`, `urljoinE`).  They are
  fallible (`Except`): `urlsplit` raises `ValueError "Invalid IPv6 URL"`
  when the authority component contains `[` without `]` or vice versa,
  exactly as CPython does.  Simplifications, documented per definition:
  the `;params` component is not split from the path, and the non-ASCII
  NFKC netloc check is not modelled (all URLs of interest are ASCII).
* A parsed BeautifulSoup document is a tree `Node`; a `BeautifulSoup`
  object is the `[document]` root element.  `BeautifulSoup(html, ...)` is
  modelled as a caller-supplied `parse : String → Option Node`, `none`
  standing for the constructor raising.  bs4 `Tag`s are truthy even when
  empty (`Tag.__bool__` is constantly `True`), so Python's `if found:` /
  `or` on find/select results is a `none` test on `Option Node`.
* `requests.Session.get` followed by `raise_for_status` is a
  caller-supplied `fetch : String → Except String FetchSuccess`; an HTTP
  error status or transport failure is the `Except.error` case carrying
  the exception message.
* The result dictionaries built by `crawl_url` are a record `CrawlResult`
  with one `Option` field per key that only some branch populates.
* `time.sleep` has no observable effect on the returned data and is not
  modelled.
-/

namespace Crawler

/-! ## String helpers: models of the Python `str` methods the source uses -/

/-- Model of Python `str.strip()`: drop whitespace from both ends. -/
def pyStrip (s : String) : String :=
  String.mk (((s.data.dropWhile Char.isWhitespace).reverse.dropWhile Char.isWhitespace).reverse)

/-- Model of Python `s.startswith(p)`: a literal, case-sensitive test. -/
def pyStartsWith (s : String) (p : String) : Bool :=
  p.data.isPrefixOf s.data

/-- Model of Python `str.splitlines()` (restricted to the common line
boundaries LF, CRLF and CR): accumulator-based worker. -/
def pySplitlinesAux : List Char → List Char → List String
  | [], cur => if cur.isEmpty then [] else [String.mk cur.reverse]
  | '\r' :: '\n' :: rest, cur => String.mk cur.reverse :: pySplitlinesAux rest []
  | '\r' :: rest, cur => String.mk cur.reverse :: pySplitlinesAux rest []
  | '\n' :: rest, cur => String.mk cur.reverse :: pySplitlinesAux rest []
  | c :: rest, cur => pySplitlinesAux rest (c :: cur)

/-- Model of Python `str.splitlines()`. -/
def pySplitlines (s : String) : List String :=
  pySplitlinesAux s.data []

/-- Model of Python `s.split(sep)` for a one-character separator:
non-overlapping, left to right, keeping empty pieces. -/
def splitChar (sep : Char) : List Char → List (List Char)
  | [] => [[]]
  | c :: rest =>
    if c = sep then [] :: splitChar sep rest
    else
      match splitChar sep rest with
      | l :: ls => (c :: l) :: ls
      | [] => [[c]]

/-- `splitChar` on `String`s. -/
def splitCharS (sep : Char) (s : String) : List String :=
  (splitChar sep s.data).map String.mk

/-- Model of Python `s.split("  ")` (the two-space separator used by the
whitespace clean-up): non-overlapping, left to right. -/
def splitTwoSpace : List Char → List (List Char)
  | [] => [[]]
  | ' ' :: ' ' :: rest => [] :: splitTwoSpace rest
  | c :: rest =>
    match splitTwoSpace rest with
    | l :: ls => (c :: l) :: ls
    | [] => [[c]]

/-- `splitTwoSpace` on `String`s. -/
def splitTwoSpaceS (s : String) : List String :=
  (splitTwoSpace s.data).map String.mk

/-- Model of Python `sep.join(pieces)`. -/
def joinWith (sep : String) : List String → String
  | [] => ""
  | [s] => s
  | s :: rest => s ++ sep ++ joinWith sep rest

/-- Model of Python `list(dict.fromkeys(l))` (first-occurrence
de-duplication), worker carrying the keys seen so far. -/
def pyDedupAux (seen : List String) : List String → List String
  | [] => []
  | a :: l => if a ∈ seen then pyDedupAux seen l else a :: pyDedupAux (a :: seen) l

/-- Model of Python `list(dict.fromkeys(l))`: keep the first occurrence of
each entry, in order. -/
def pyDedup (l : List String) : List String :=
  pyDedupAux [] l

/-! ## Model of `urllib.parse` (CPython `urllib/parse.py`)

`urlsplitE` follows CPython's `urlsplit`; `urljoinE` follows CPython's
`urljoin` (the RFC 3986 merge with dot-segment resolution).  Both return
`Except` because `urlsplit` raises `ValueError` on a bracket-unbalanced
authority ("Invalid IPv6 URL"), an error the crawler's link walk can hit. -/

/-- The five components CPython's `urlsplit` returns. -/
structure UrlParts where
  scheme : String
  netloc : String
  path : String
  query : String
  fragment : String
deriving Repr, DecidableEq

/-- CPython `scheme_chars`: letters, digits, `+`, `-`, `.`. -/
def isSchemeChar (c : Char) : Bool :=
  c.isAlpha || c.isDigit || c == '+' || c == '-' || c == '.'

/-- Split a character list at the first occurrence of `sep` (which is
dropped); `none` when `sep` does not occur. -/
def splitFirst (sep : Char) : List Char → Option (List Char × List Char)
  | [] => none
  | c :: rest =>
    if c = sep then some ([], rest)
    else (splitFirst sep rest).map (fun p => (c :: p.1, p.2))

/-- CPython `_UNSAFE_URL_BYTES_TO_REMOVE`: tab, CR and LF are removed from a
URL before splitting. -/
def removeUnsafe (l : List Char) : List Char :=
  l.filter (fun c => !(c == '\t' || c == '\r' || c == '\n'))

/-- CPython `uses_relative`. -/
def usesRelative : List String :=
  ["", "ftp", "http", "gopher", "nntp", "imap", "wais", "file", "https",
   "shttp", "mms", "prospero", "rtsp", "rtspu", "sftp", "svn", "svn+ssh",
   "ws", "wss"]

/-- CPython `uses_netloc`. -/
def usesNetloc : List String :=
  ["", "ftp", "http", "gopher", "nntp", "telnet", "imap", "wais", "file",
   "mms", "https", "shttp", "snews", "prospero", "rtsp", "rtspu", "rsync",
   "svn", "svn+ssh", "sftp", "nfs", "git", "git+ssh", "ws", "wss"]

/-- Model of CPython `urlsplit(url, defaultScheme)`: extract the scheme
(first `:` with a valid scheme name before it, lowercased; otherwise the
default), the authority after `//` (raising on unbalanced `[`/`]`), then
the fragment after `#` and the query after `?`.  The `;params` split of
`urlparse` and the non-ASCII NFKC netloc check are not modelled. -/
def urlsplitE (url : String) (defaultScheme : String) : Except String UrlParts :=
  let u0 := removeUnsafe url.data
  let p :=
    match splitFirst ':' u0 with
    | some (pre, post) =>
      if pre ≠ [] ∧ (pre.headD ' ').isAlpha ∧ pre.all isSchemeChar then
        (String.mk (pre.map Char.toLower), post)
      else (defaultScheme, u0)
    | none => (defaultScheme, u0)
  match p with
  | (scheme, rest) =>
    let nsplit : Except String (List Char × List Char) :=
      match rest with
      | '/' :: '/' :: r =>
        let netloc := r.takeWhile (fun c => !(c == '/' || c == '?' || c == '#'))
        let rest2 := r.dropWhile (fun c => !(c == '/' || c == '?' || c == '#'))
        if (netloc.contains '[' && !(netloc.contains ']'))
            || (netloc.contains ']' && !(netloc.contains '[')) then
          Except.error "Invalid IPv6 URL"
        else Except.ok (netloc, rest2)
      | other => Except.ok ([], other)
    match nsplit with
    | Except.error e => Except.error e
    | Except.ok (netloc, rest2) =>
      let fsplit :=
        match splitFirst '#' rest2 with
        | some (a, b) => (a, b)
        | none => (rest2, [])
      match fsplit with
      | (rest3, fragment) =>
        let qsplit :=
          match splitFirst '?' rest3 with
          | some (a, b) => (a, b)
          | none => (rest3, [])
        match qsplit with
        | (path, query) =>
          Except.ok ⟨scheme, String.mk netloc, String.mk path,
                      String.mk query, String.mk fragment⟩

/-- Model of CPython `urlunsplit`. -/
def urlunsplit (scheme netloc path query fragment : String) : String :=
  let url := path
  let url :=
    if netloc ≠ "" ∨ (scheme ≠ "" ∧ scheme ∈ usesNetloc ∧ pyStartsWith url "//" = false) then
      let url2 := if url ≠ "" ∧ pyStartsWith url "/" = false then "/" ++ url else url
      "//" ++ netloc ++ url2
    else url
  let url := if scheme ≠ "" then scheme ++ ":" ++ url else url
  let url := if query ≠ "" then url ++ "?" ++ query else url
  if fragment ≠ "" then url ++ "#" ++ fragment else url

/-- The dot-segment resolution loop of CPython `urljoin`: `..` pops the
accumulated path (ignored when empty), `.` is dropped, anything else is
appended. -/
def resolveDots : List String → List String → List String
  | [], acc => acc
  | seg :: rest, acc =>
    if seg = ".." then resolveDots rest acc.dropLast
    else if seg = "." then resolveDots rest acc
    else resolveDots rest (acc ++ [seg])

/-- CPython `urljoin`'s `segments[1:-1] = filter(None, segments[1:-1])`:
drop empty segments except in first and last position (worker for the
tail, which always keeps the last element). -/
def filterMiddleAux : List String → List String
  | [] => []
  | [y] => [y]
  | y :: rest => if y = "" then filterMiddleAux rest else y :: filterMiddleAux rest

/-- CPython `urljoin`'s middle-segment filter (keeps first and last). -/
def filterMiddle : List String → List String
  | [] => []
  | [x] => [x]
  | x :: rest => x :: filterMiddleAux rest

/-- Model of CPython `urljoin(base, url)`: empty-argument shortcuts, split
both URLs (the base's scheme is the default for the relative URL), return
`url` unchanged on scheme mismatch, adopt the base's authority when the
relative URL has none, and otherwise merge the paths with dot-segment
resolution.  Errors propagate from `urlsplitE`. -/
def urljoinE (base url : String) : Except String String :=
  if base = "" then Except.ok url
  else if url = "" then Except.ok base
  else
    match urlsplitE base "" with
    | Except.error e => Except.error e
    | Except.ok b =>
      match urlsplitE url b.scheme with
      | Except.error e => Except.error e
      | Except.ok u =>
        if u.scheme ≠ b.scheme ∨ u.scheme ∉ usesRelative then Except.ok url
        else if u.scheme ∈ usesNetloc ∧ u.netloc ≠ "" then
          Except.ok (urlunsplit u.scheme u.netloc u.path u.query u.fragment)
        else
          let netloc := if u.scheme ∈ usesNetloc then b.netloc else u.netloc
          if u.path = "" then
            let query := if u.query = "" then b.query else u.query
            Except.ok (urlunsplit u.scheme netloc b.path query u.fragment)
          else
            let baseParts := splitCharS '/' b.path
            let baseParts :=
              if baseParts.getLast? ≠ some "" then baseParts.dropLast else baseParts
            let segments :=
              if pyStartsWith u.path "/" then splitCharS '/' u.path
              else filterMiddle (baseParts ++ splitCharS '/' u.path)
            let resolved := resolveDots segments []
            let resolved :=
              if segments.getLast? = some "." ∨ segments.getLast? = some ".." then
                resolved ++ [""]
              else resolved
            let p := joinWith "/" resolved
            let p := if p = "" then "/" else p
            Except.ok (urlunsplit u.scheme netloc p u.query u.fragment)

/-- Model of `urlparse(url).netloc` as the crawler uses it (it only reads
the `netloc` field, so the `;params` simplification is irrelevant here). -/
def urlparseNetlocE (url : String) : Except String String :=
  (urlsplitE url "").map UrlParts.netloc
/-! ## Model of a parsed BeautifulSoup document

`Node`/`NodeList` form a mutual inductive so that every traversal below is
structurally recursive (and hence kernel-computable).  `html.parser`
lowercases tag and attribute names during parsing, so trees are assumed to
carry lowercase names.  bs4 searches (`find_all`, `find`, `select_one`)
walk the tree in document order (depth-first, pre-order); the search
functions below include the node they are given, which coincides with
bs4's descendant searches because the crawler only searches from the
`[document]` root, which no tag name or selector matches. -/

mutual
/-- A node of the parsed document: a text node or an element with a tag
name, an attribute list and children. -/
inductive Node where
  | text (s : String) : Node
  | element (tag : String) (attrs : List (String × String)) (children : NodeList) : Node
/-- A sequence of sibling nodes. -/
inductive NodeList where
  | nil : NodeList
  | cons (n : Node) (ns : NodeList) : NodeList
end

/-- Build a `NodeList` from a `List Node` (for writing concrete documents). -/
def nl : List Node → NodeList
  | [] => NodeList.nil
  | n :: ns => NodeList.cons n (nl ns)

/-- Attribute lookup: the value of the first pair with the given name, as
bs4's `tag[name]` / `tag.has_attr(name)` see it. -/
def getAttr (attrs : List (String × String)) (name : String) : Option String :=
  (attrs.find? (fun p => p.1 == name)).map Prod.snd

mutual
/-- The text contents of all text-node descendants, in document order:
what bs4's `get_text` iterates over. -/
def textsN : Node → List String
  | .text s => [s]
  | .element _ _ cs => textsC cs
/-- `textsN` over a sibling list. -/
def textsC : NodeList → List String
  | .nil => []
  | .cons n ns => textsN n ++ textsC ns
end

/-- Model of bs4 `tag.get_text(separator=' ', strip=True)`: each descendant
string is stripped, empty results are dropped, the rest are joined with
one space. -/
def getText (n : Node) : String :=
  joinWith " " (((textsN n).map pyStrip).filter (fun s => s != ""))

mutual
/-- The `href` attribute values of all `a` elements carrying one, in
document order: `soup.find_all('a', href=True)` followed by
`link['href']`. -/
def anchorHrefsN : Node → List String
  | .text _ => []
  | .element t a cs =>
    (if t == "a" then
      match getAttr a "href" with
      | some h => [h]
      | none => []
     else []) ++ anchorHrefsC cs
/-- `anchorHrefsN` over a sibling list. -/
def anchorHrefsC : NodeList → List String
  | .nil => []
  | .cons n ns => anchorHrefsN n ++ anchorHrefsC ns
end

/-- The element kinds `extract_body_content` decomposes (crawler.py line
66): they never contribute to content. -/
def unwantedTags : List String :=
  ["script", "style", "nav", "header", "footer", "aside", "meta", "link", "noscript"]

/-- Whether a node is an element whose tag is in `unwantedTags`. -/
def isUnwanted : Node → Bool
  | .text _ => false
  | .element t _ _ => unwantedTags.contains t

mutual
/-- Model of `for element in soup([...]): element.decompose()`: remove every
`unwantedTags` element (with its whole subtree) from the descendants.  The
node itself is kept: `find_all` searches descendants of the object it is
called on, and the crawler calls it on the `[document]` root. -/
def decomposeUnwantedN : Node → Node
  | .text s => .text s
  | .element t a cs => .element t a (decomposeUnwantedC cs)
/-- `decomposeUnwantedN` over a sibling list: drop unwanted elements, clean
the kept ones recursively. -/
def decomposeUnwantedC : NodeList → NodeList
  | .nil => .nil
  | .cons n ns =>
    if isUnwanted n then decomposeUnwantedC ns
    else NodeList.cons (decomposeUnwantedN n) (decomposeUnwantedC ns)
end

/-- Class attribute values are whitespace-separated token lists; worker
accumulating the current token reversed. -/
def classTokensAux : List Char → List Char → List String
  | [], cur => if cur.isEmpty then [] else [String.mk cur.reverse]
  | c :: rest, cur =>
    if c.isWhitespace then
      if cur.isEmpty then classTokensAux rest []
      else String.mk cur.reverse :: classTokensAux rest []
    else classTokensAux rest (c :: cur)

/-- The whitespace-separated tokens of a `class` attribute value. -/
def classTokens (v : String) : List String :=
  classTokensAux v.data []

/-- Model of the CSS selector match for the selectors the crawler uses
(soupsieve restricted to them): `.c` matches an element one of whose class
tokens is `c`, `#i` matches an element whose `id` is `i`, and a bare name
matches the tag. -/
def selMatches (sel : String) (tag : String) (attrs : List (String × String)) : Bool :=
  match sel.data with
  | '.' :: cs =>
    (match getAttr attrs "class" with
     | some v => (classTokens v).contains (String.mk cs)
     | none => false)
  | '#' :: cs => getAttr attrs "id" == some (String.mk cs)
  | _ => tag == sel

mutual
/-- Model of `soup.select_one(sel)` (and, for a bare tag-name selector, of
`soup.find(name)`): the first matching element in document order. -/
def selectOneN (sel : String) : Node → Option Node
  | .text _ => none
  | .element t a cs =>
    if selMatches sel t a then some (.element t a cs) else selectOneC sel cs
/-- `selectOneN` over a sibling list. -/
def selectOneC (sel : String) : NodeList → Option Node
  | .nil => none
  | .cons n ns =>
    match selectOneN sel n with
    | some m => some m
    | none => selectOneC sel ns
end

/-- The ordered content-container selector list of `extract_body_content`
(crawler.py lines 73–83). -/
def selectors : List String :=
  ["main", "article", ".content", ".main-content", "#content", "#main",
   ".post-content", ".entry-content", ".article-content"]

/-- The selector loop of `extract_body_content` (lines 85–89): try each
selector in order, stopping at the first one whose `select_one` finds an
element (bs4 tags are truthy, so `if found:` is a `none` test). -/
def findMainContent : List String → Node → Option Node
  | [], _ => none
  | sel :: rest, soup =>
    match selectOneN sel soup with
    | some found => some found
    | none => findMainContent rest soup

/-- The content root `extract_body_content` extracts text from: the
selector loop's result, else `soup.find('body') or soup` (lines 92–93). -/
def contentRoot (soup : Node) : Node :=
  match findMainContent selectors soup with
  | some m => m
  | none =>
    match selectOneN "body" soup with
    | some b => b
    | none => soup

/-- The whitespace clean-up of `extract_body_content` (lines 99–101):
split into lines, strip each, split each on two spaces, strip each piece,
drop empty pieces, join the rest with single spaces. -/
def cleanWhitespace (text_content : String) : String :=
  let lines := (pySplitlines text_content).map pyStrip
  let chunks := (lines.map (fun line => (splitTwoSpaceS line).map pyStrip)).flatten
  joinWith " " (chunks.filter (fun chunk => chunk != ""))

/-- Model of `SimpleCrawler.extract_body_content` (crawler.py lines
58–107).  `parse` stands for `BeautifulSoup(html_content, 'html.parser')`;
`none` models the constructor raising, in which case the `except` branch
returns the raw input and no soup.  Otherwise: decompose unwanted
elements, choose the content root, take its spaced-and-stripped text and
normalize whitespace; the (decomposed) soup is returned alongside for
link extraction. -/
def extract_body_content (parse : String → Option Node) (html_content : String) :
    String × Option Node :=
  match parse html_content with
  | none => (html_content, none)
  | some soup0 =>
    let soup := decomposeUnwantedN soup0
    let main_content := contentRoot soup
    let text_content := getText main_content
    (cleanWhitespace text_content, some soup)

/-! ## Model of `SimpleCrawler.extract_links` (crawler.py lines 15–56) -/

/-- The `links` dictionary: three ordered sequences of absolute URLs. -/
structure Links where
  internal : List String
  external : List String
  all : List String
deriving Repr, DecidableEq

/-- The skip test of line 31: empty after stripping, or starting with one
of the non-navigable schemes (the argument is already stripped). -/
def skipHref (href : String) : Bool :=
  href == "" || pyStartsWith href "javascript:" || pyStartsWith href "mailto:"
    || pyStartsWith href "tel:" || pyStartsWith href "#" || pyStartsWith href "data:"

/-- One iteration of the anchor loop (lines 27–46) on one raw href value:
strip it; a skipped href leaves the accumulator unchanged; otherwise
resolve it against the base (`urljoin`), read both netlocs (`urlparse`),
and append to `internal` or `external` and to `all`.  `none` models an
exception escaping the iteration (the three library calls happen before
any append, so a raising iteration appends nothing). -/
def linkStep (base_url : String) (links : Links) (rawHref : String) : Option Links :=
  let href := pyStrip rawHref
  if skipHref href then some links
  else
    match urljoinE base_url href with
    | Except.error _ => none
    | Except.ok absolute_url =>
      match urlparseNetlocE base_url with
      | Except.error _ => none
      | Except.ok base_domain =>
        match urlparseNetlocE absolute_url with
        | Except.error _ => none
        | Except.ok link_domain =>
          if link_domain = base_domain then
            some ⟨links.internal ++ [absolute_url], links.external,
                  links.all ++ [absolute_url]⟩
          else
            some ⟨links.internal, links.external ++ [absolute_url],
                  links.all ++ [absolute_url]⟩

/-- The anchor loop: process hrefs in order; an exception (a `none` step)
stops the walk, returning the links accumulated so far and `true` for
"an exception was caught". -/
def linksLoop (base_url : String) : List String → Links → Links × Bool
  | [], links => (links, false)
  | h :: rest, links =>
    match linkStep base_url links h with
    | none => (links, true)
    | some links2 => linksLoop base_url rest links2

/-- Model of `SimpleCrawler.extract_links`: walk the anchors from an empty
accumulator; when the walk completes, de-duplicate each sequence
preserving first occurrences (lines 49–51); when an exception was caught,
the partially filled dictionary is returned as-is (the `except` on line 53
only logs, and `return links` on line 56 runs either way, with the
de-duplication assignments never reached). -/
def extract_links (soup : Node) (base_url : String) : Links :=
  let r := linksLoop base_url (anchorHrefsN soup) ⟨[], [], []⟩
  if r.2 then r.1
  else ⟨pyDedup r.1.internal, pyDedup r.1.external, pyDedup r.1.all⟩
/-! ## Model of `SimpleCrawler.crawl_url` and `crawl_multiple_urls`
(crawler.py lines 109–169) -/

/-- What a successful `session.get` (after `raise_for_status`) provides:
the fields `crawl_url` reads from the response. -/
structure FetchSuccess where
  status_code : Nat
  text : String
  content_type : String
  encoding : String
deriving Repr, DecidableEq

/-- The per-URL result dictionary.  Keys that only one branch of
`crawl_url` writes are `Option` fields, `none` meaning the key is absent
from the dictionary. -/
structure CrawlResult where
  url : String
  success : Bool
  status_code : Option Nat := none
  content : Option String := none
  content_type : Option String := none
  encoding : Option String := none
  content_length : Option Nat := none
  links : Option Links := none
  internal_links_count : Option Nat := none
  external_links_count : Option Nat := none
  total_links_count : Option Nat := none
  error : Option String := none
deriving Repr, DecidableEq

/-- The scheme normalization of `crawl_url` (lines 115–116): prepend
`https://` when the URL starts with neither `http://` nor `https://`
(a literal, case-sensitive test). -/
def normalize_url (url : String) : String :=
  if pyStartsWith url "http://" || pyStartsWith url "https://" then url
  else "https://" ++ url

/-- Model of `SimpleCrawler.crawl_url`.  `fetch` stands for
`self.session.get(url, timeout=10)` followed by
`response.raise_for_status()`: `Except.error` is a raised
`requests.exceptions.RequestException` (transport failure or HTTP error
status) carrying its message, handled by the `except` branch of lines
145–150.  On success, extract the body content, extract links when a soup
is available (bs4 objects are truthy, so `if soup:` is the `some` test),
and build the success dictionary of lines 131–143. -/
def crawl_url (fetch : String → Except String FetchSuccess)
    (parse : String → Option Node) (url0 : String) : CrawlResult :=
  let url := normalize_url url0
  match fetch url with
  | Except.error e => { url := url, success := false, error := some e }
  | Except.ok response =>
    let r := extract_body_content parse response.text
    let body_content := r.1
    let links :=
      match r.2 with
      | some soup => extract_links soup url
      | none => ⟨[], [], []⟩
    { url := url
      success := true
      status_code := some response.status_code
      content := some body_content
      content_type := some response.content_type
      encoding := some response.encoding
      content_length := some body_content.length
      links := some links
      internal_links_count := some links.internal.length
      external_links_count := some links.external.length
      total_links_count := some links.all.length
      error := none }

/-- Model of `SimpleCrawler.crawl_multiple_urls` (lines 158–169): strip
each entry, skip empty ones, crawl the rest in order and collect the
results.  The `time.sleep(1)` politeness delay does not affect the
returned data and is not modelled. -/
def crawl_multiple_urls (fetch : String → Except String FetchSuccess)
    (parse : String → Option Node) : List String → List CrawlResult
  | [] => []
  | url0 :: rest =>
    let url := pyStrip url0
    if url = "" then crawl_multiple_urls fetch parse rest
    else crawl_url fetch parse url :: crawl_multiple_urls fetch parse rest

/-! ## Concrete fixtures used by the claim theorems and witnesses -/

/-- A fetch that always fails with a transport error. -/
def noFetch : String → Except String FetchSuccess :=
  fun _ => Except.error "connection refused"

/-- A parse that always raises (models `BeautifulSoup` failing). -/
def noParse : String → Option Node :=
  fun _ => none

/-- A fixed successful response. -/
def okResp : FetchSuccess :=
  ⟨200, "<html><body>Hello</body></html>", "text/html; charset=utf-8", "utf-8"⟩

/-- A fetch that always succeeds with `okResp`. -/
def okFetch : String → Except String FetchSuccess :=
  fun _ => Except.ok okResp

/-- An anchor element with an `href` attribute. -/
def aEl (href : String) : Node :=
  Node.element "a" [("href", href)] NodeList.nil

/-- The raw body used for the C1 evaluation: a page whose raw HTML and
cleaned body text differ. -/
def c1html : String :=
  "<html><body><main>Hi</main><script>x()</script></body></html>"

/-- The parsed-document tree of `c1html`. -/
def c1doc : Node :=
  Node.element "[document]" [] (nl [Node.element "html" [] (nl
    [Node.element "body" [] (nl
      [Node.element "main" [] (nl [Node.text "Hi"]),
       Node.element "script" [] (nl [Node.text "x()"])])])])

/-- A fetch returning `c1html`. -/
def c1fetch : String → Except String FetchSuccess :=
  fun _ => Except.ok ⟨200, c1html, "text/html", "utf-8"⟩

/-- A parse returning `c1doc`. -/
def c1parse : String → Option Node :=
  fun _ => some c1doc

/-- A document with two anchors to the same external URL followed by an
anchor whose href makes `urlparse` raise (unbalanced bracket). -/
def c3soup : Node :=
  Node.element "[document]" [] (nl [Node.element "body" [] (nl
    [aEl "https://dup.com/x", aEl "https://dup.com/x", aEl "http://[bad"])])

/-- A document with two anchors to distinct same-site URLs (no failure). -/
def c3okSoup : Node :=
  Node.element "[document]" [] (nl [Node.element "body" [] (nl
    [aEl "/a", aEl "/b", aEl "/a"])])

/-- A document with one good anchor followed by one whose href makes
`urlparse` raise. -/
def c4soup : Node :=
  Node.element "[document]" [] (nl [Node.element "body" [] (nl
    [aEl "https://ok.com/x", aEl "http://[bad"])])

/-- A document containing both a `main` and a `nav` element, with text
found only inside each. -/
def c5doc : Node :=
  Node.element "[document]" [] (nl [Node.element "html" [] (nl
    [Node.element "body" [] (nl
      [Node.element "nav" [] (nl [Node.text "NAVWORD"]),
       Node.element "main" [] (nl [Node.text "MAINWORD"])])])])

/-- A parse returning `c5doc`. -/
def c5parse : String → Option Node :=
  fun _ => some c5doc

/-- `c5doc` with the `nav` element decomposed. -/
def c5cleaned : Node :=
  Node.element "[document]" [] (nl [Node.element "html" [] (nl
    [Node.element "body" [] (nl
      [Node.element "main" [] (nl [Node.text "MAINWORD"])])])])

/-- A document with one relative anchor `/about`. -/
def c6doc : Node :=
  Node.element "[document]" [] (nl [Node.element "html" [] (nl
    [Node.element "body" [] (nl [aEl "/about"])])])

/-- A document whose anchors are all non-navigable. -/
def c6skipDoc : Node :=
  Node.element "[document]" [] (nl [Node.element "body" [] (nl
    [aEl "#", aEl "javascript:void(0)", aEl "mailto:a@b.com", aEl "  "])])

/-- Whether two URLs have the same network location as the classifier of
`extract_links` compares them (both `urlparse` calls succeed and the
netlocs are equal); used to state the classification invariant. -/
def sameNetloc (base u : String) : Bool :=
  match urlparseNetlocE base, urlparseNetlocE u with
  | Except.ok b, Except.ok l => l == b
  | _, _ => false

/-- The invariant the anchor loop maintains: members of `internal` and
`external` appear in `all`, `internal` members share the base's netloc and
`external` members do not. -/
def LinksInv (base : String) (L : Links) : Prop :=
  (∀ u ∈ L.internal, u ∈ L.all) ∧ (∀ u ∈ L.external, u ∈ L.all) ∧
  (∀ u ∈ L.internal, sameNetloc base u = true) ∧
  (∀ u ∈ L.external, sameNetloc base u = false)
/-- The content root as the spec words it (for comparison with
`contentRoot`): the first match of the ordered selector list — `main`,
`article`, class `content`, class `main-content`, id `content`, id `main`,
class `post-content`, class `entry-content`, class `article-content` —
else the `body` element, else the whole document. -/
def specContentRoot (soup : Node) : Node :=
  match selectOneN "main" soup with
  | some m => m
  | none =>
  match selectOneN "article" soup with
  | some m => m
  | none =>
  match selectOneN ".content" soup with
  | some m => m
  | none =>
  match selectOneN ".main-content" soup with
  | some m => m
  | none =>
  match selectOneN "#content" soup with
  | some m => m
  | none =>
  match selectOneN "#main" soup with
  | some m => m
  | none =>
  match selectOneN ".post-content" soup with
  | some m => m
  | none =>
  match selectOneN ".entry-content" soup with
  | some m => m
  | none =>
  match selectOneN ".article-content" soup with
  | some m => m
  | none =>
  match selectOneN "body" soup with
  | some b => b
  | none => soup

/-! ## Supporting lemmas -/

/-- Appending concatenates the underlying character lists. -/
theorem string_data_append (s t : String) : (s ++ t).data = s.data ++ t.data := rfl

/-- A list is a list-initial-segment of itself followed by anything. -/
theorem isPrefixOf_self_append (l t : List Char) : l.isPrefixOf (l ++ t) = true := by
  induction l with
  | nil => simp [List.isPrefixOf]
  | cons c cs ih => simp [List.isPrefixOf, ih]

/-- `pyStartsWith` holds for an explicit prepend. -/
theorem pyStartsWith_append (p u : String) : pyStartsWith (p ++ u) p = true := by
  unfold pyStartsWith
  rw [string_data_append]
  exact isPrefixOf_self_append p.data u.data

/-- Membership in the de-duplication worker: an element of the input that
was not already seen. -/
theorem mem_pyDedupAux (l : List String) :
    ∀ seen x, x ∈ pyDedupAux seen l ↔ x ∈ l ∧ x ∉ seen := by
  induction l with
  | nil => intro seen x; simp [pyDedupAux]
  | cons a l ih =>
    intro seen x
    by_cases h : a ∈ seen
    · rw [show pyDedupAux seen (a :: l) = pyDedupAux seen l from by simp [pyDedupAux, h], ih]
      constructor
      · rintro ⟨hx, hns⟩; exact ⟨List.mem_cons_of_mem a hx, hns⟩
      · rintro ⟨hor, hns⟩
        rcases List.mem_cons.mp hor with rfl | hx
        · exact absurd h hns
        · exact ⟨hx, hns⟩
    · rw [show pyDedupAux seen (a :: l) = a :: pyDedupAux (a :: seen) l from by
          simp [pyDedupAux, h]]
      simp only [List.mem_cons, ih]
      constructor
      · rintro (rfl | ⟨hx, hns⟩)
        · exact ⟨Or.inl rfl, h⟩
        · exact ⟨Or.inr hx, fun hc => hns (Or.inr hc)⟩
      · rintro ⟨rfl | hx, hns⟩
        · exact Or.inl rfl
        · by_cases hxa : x = a
          · exact Or.inl hxa
          · exact Or.inr ⟨hx, fun hc => by
              rcases hc with h1 | h1
              · exact hxa h1
              · exact hns h1⟩

/-- The de-duplication worker yields a duplicate-free list. -/
theorem nodup_pyDedupAux (l : List String) : ∀ seen, (pyDedupAux seen l).Nodup := by
  induction l with
  | nil => intro seen; simp [pyDedupAux]
  | cons a l ih =>
    intro seen
    by_cases h : a ∈ seen
    · simpa [pyDedupAux, h] using ih seen
    · rw [show pyDedupAux seen (a :: l) = a :: pyDedupAux (a :: seen) l from by
          simp [pyDedupAux, h]]
      refine List.nodup_cons.mpr ⟨?_, ih (a :: seen)⟩
      intro hc
      exact ((mem_pyDedupAux l (a :: seen) a).mp hc).2 (List.mem_cons_self a seen)

/-- The de-duplication worker keeps entries in their original order. -/
theorem sublist_pyDedupAux (l : List String) : ∀ seen, (pyDedupAux seen l).Sublist l := by
  induction l with
  | nil => intro seen; simp [pyDedupAux]
  | cons a l ih =>
    intro seen
    by_cases h : a ∈ seen
    · rw [show pyDedupAux seen (a :: l) = pyDedupAux seen l from by simp [pyDedupAux, h]]
      exact (ih seen).cons a
    · rw [show pyDedupAux seen (a :: l) = a :: pyDedupAux (a :: seen) l from by
          simp [pyDedupAux, h]]
      exact (ih (a :: seen)).cons₂ a

/-- `pyDedup` keeps exactly the members of its input. -/
theorem mem_pyDedup (l : List String) (x : String) : x ∈ pyDedup l ↔ x ∈ l := by
  unfold pyDedup
  rw [mem_pyDedupAux]
  simp

/-- `pyDedup` yields a duplicate-free list. -/
theorem nodup_pyDedup (l : List String) : (pyDedup l).Nodup :=
  nodup_pyDedupAux l []

/-- `pyDedup` preserves the input's order. -/
theorem sublist_pyDedup (l : List String) : (pyDedup l).Sublist l :=
  sublist_pyDedupAux l []
/-- One successful step of the anchor loop preserves the classification
invariant: what it appends to `internal`/`external` is also appended to
`all`, and it is appended to the side its netloc comparison selects. -/
theorem linkStep_inv (base : String) (acc acc2 : Links) (h : String)
    (hs : linkStep base acc h = some acc2) (hInv : LinksInv base acc) :
    LinksInv base acc2 := by
  obtain ⟨hia, hea, hit, hef⟩ := hInv
  unfold linkStep at hs
  by_cases hskip : skipHref (pyStrip h) = true
  · rw [if_pos hskip] at hs
    cases hs
    exact ⟨hia, hea, hit, hef⟩
  · rw [if_neg hskip] at hs
    cases hj : urljoinE base (pyStrip h) with
    | error e => simp [hj] at hs
    | ok absolute_url =>
      simp only [hj] at hs
      cases hb : urlparseNetlocE base with
      | error e => simp [hb] at hs
      | ok base_domain =>
        simp only [hb] at hs
        cases hl : urlparseNetlocE absolute_url with
        | error e => simp [hl] at hs
        | ok link_domain =>
          simp only [hl] at hs
          have hsame : sameNetloc base absolute_url = (link_domain == base_domain) := by
            unfold sameNetloc
            rw [hb, hl]
          by_cases heq : link_domain = base_domain
          · rw [if_pos heq] at hs
            cases hs
            refine ⟨?_, ?_, ?_, ?_⟩
            · intro u hu
              rcases List.mem_append.mp hu with h1 | h1
              · exact List.mem_append.mpr (Or.inl (hia u h1))
              · exact List.mem_append.mpr (Or.inr h1)
            · intro u hu
              exact List.mem_append.mpr (Or.inl (hea u hu))
            · intro u hu
              rcases List.mem_append.mp hu with h1 | h1
              · exact hit u h1
              · rcases List.mem_singleton.mp h1 with rfl
                rw [hsame]
                exact beq_iff_eq.mpr heq
            · exact hef
          · rw [if_neg heq] at hs
            cases hs
            refine ⟨?_, ?_, ?_, ?_⟩
            · intro u hu
              exact List.mem_append.mpr (Or.inl (hia u hu))
            · intro u hu
              rcases List.mem_append.mp hu with h1 | h1
              · exact List.mem_append.mpr (Or.inl (hea u h1))
              · exact List.mem_append.mpr (Or.inr h1)
            · exact hit
            · intro u hu
              rcases List.mem_append.mp hu with h1 | h1
              · exact hef u h1
              · rcases List.mem_singleton.mp h1 with rfl
                rw [hsame]
                exact beq_eq_false_iff_ne.mpr heq

/-- The anchor loop preserves the classification invariant. -/
theorem linksLoop_inv (base : String) (hrefs : List String) :
    ∀ acc, LinksInv base acc → LinksInv base (linksLoop base hrefs acc).1 := by
  induction hrefs with
  | nil => intro acc hInv; exact hInv
  | cons h rest ih =>
    intro acc hInv
    unfold linksLoop
    cases hs : linkStep base acc h with
    | none => exact hInv
    | some acc2 => exact ih acc2 (linkStep_inv base acc acc2 h hs hInv)

/-- C3.  The claim as amended: for every LinkSet the extractor returns,
`internal` and `external` are disjoint and both contained in `all`; and
whenever the anchor walk completes without a caught exception, each of the
three sequences is duplicate-free and `all` keeps the resolved links in
first-occurrence order (the exception path returns the partially
accumulated sequences without de-duplicating them). -/
theorem c3_linkset_invariants (soup : Node) (base : String) :
    (∀ u ∈ (extract_links soup base).internal, u ∈ (extract_links soup base).all) ∧
    (∀ u ∈ (extract_links soup base).external, u ∈ (extract_links soup base).all) ∧
    (∀ u ∈ (extract_links soup base).internal, u ∉ (extract_links soup base).external) ∧
    ((linksLoop base (anchorHrefsN soup) ⟨[], [], []⟩).2 = false →
      (extract_links soup base).internal.Nodup ∧
      (extract_links soup base).external.Nodup ∧
      (extract_links soup base).all.Nodup ∧
      (extract_links soup base).all.Sublist
        (linksLoop base (anchorHrefsN soup) ⟨[], [], []⟩).1.all) := by
  have hInv0 : LinksInv base ⟨[], [], []⟩ := by
    refine ⟨?_, ?_, ?_, ?_⟩ <;> intro u hu <;> simp at hu
  have hdisj : ∀ u, sameNetloc base u = true → sameNetloc base u = false → False := by
    intro u h1 h2
    rw [h1] at h2
    cases h2
  rcases hloop : linksLoop base (anchorHrefsN soup) ⟨[], [], []⟩ with ⟨L, exc⟩
  have hInvL : LinksInv base L := by
    have h2 := linksLoop_inv base (anchorHrefsN soup) ⟨[], [], []⟩ hInv0
    rw [hloop] at h2
    exact h2
  obtain ⟨hia, hea, hit, hef⟩ := hInvL
  cases exc with
  | true =>
    have hx : extract_links soup base = L := by
      unfold extract_links
      rw [hloop]
      rfl
    refine ⟨?_, ?_, ?_, ?_⟩
    · rw [hx]; exact hia
    · rw [hx]; exact hea
    · rw [hx]
      intro u hu hu2
      exact hdisj u (hit u hu) (hef u hu2)
    · intro hfalse
      exact nomatch hfalse
  | false =>
    have hx : extract_links soup base
        = ⟨pyDedup L.internal, pyDedup L.external, pyDedup L.all⟩ := by
      unfold extract_links
      rw [hloop]
      rfl
    refine ⟨?_, ?_, ?_, ?_⟩
    · rw [hx]
      intro u hu
      exact (mem_pyDedup _ u).mpr (hia u ((mem_pyDedup _ u).mp hu))
    · rw [hx]
      intro u hu
      exact (mem_pyDedup _ u).mpr (hea u ((mem_pyDedup _ u).mp hu))
    · rw [hx]
      intro u hu hu2
      exact hdisj u (hit u ((mem_pyDedup _ u).mp hu)) (hef u ((mem_pyDedup _ u).mp hu2))
    · rw [hx]
      intro _
      exact ⟨nodup_pyDedup _, nodup_pyDedup _, nodup_pyDedup _, sublist_pyDedup _⟩

/-- C3, counterexample to the claim as stated: on a page with two anchors
to the same URL followed by one whose href makes `urlparse` raise, the
walk is interrupted after the duplicate appends, so the returned `all`
(and `external`) sequence contains a duplicate entry. -/
theorem c3_duplicates_after_exception :
    (linksLoop "https://example.com" (anchorHrefsN c3soup) ⟨[], [], []⟩).2 = true ∧
    (extract_links c3soup "https://example.com").all
      = ["https://dup.com/x", "https://dup.com/x"] ∧
    ¬ (extract_links c3soup "https://example.com").all.Nodup := by
  refine ⟨by decide, by decide, by decide⟩

/-- C3, witness: on a page with anchors `/a`, `/b`, `/a` (no failure) the
amended theorem yields duplicate-free output sequences. -/
theorem c3_witness :
    (linksLoop "https://example.com" (anchorHrefsN c3okSoup) ⟨[], [], []⟩).2 = false ∧
    (extract_links c3okSoup "https://example.com").internal.Nodup ∧
    (extract_links c3okSoup "https://example.com").external.Nodup ∧
    (extract_links c3okSoup "https://example.com").all.Nodup :=
  ⟨by decide,
   ((c3_linkset_invariants c3okSoup "https://example.com").2.2.2 (by decide)).1,
   ((c3_linkset_invariants c3okSoup "https://example.com").2.2.2 (by decide)).2.1,
   ((c3_linkset_invariants c3okSoup "https://example.com").2.2.2 (by decide)).2.2.1⟩
/-- The one-step equation of the anchor loop on a cons. -/
theorem linksLoop_cons (base : String) (h : String) (rest : List String)
    (acc : Links) :
    linksLoop base (h :: rest) acc
      = match linkStep base acc h with
        | none => (acc, true)
        | some acc2 => linksLoop base rest acc2 := rfl

/-- The anchor loop over a concatenation: when the first part completes
without an exception, continue over the second part from its result. -/
theorem linksLoop_append_ok (base : String) (l1 l2 : List String) :
    ∀ acc, (linksLoop base l1 acc).2 = false →
      linksLoop base (l1 ++ l2) acc = linksLoop base l2 (linksLoop base l1 acc).1 := by
  induction l1 with
  | nil => intro acc _; rfl
  | cons h rest ih =>
    intro acc hok
    cases hs : linkStep base acc h with
    | none =>
      rw [linksLoop_cons] at hok
      simp [hs] at hok
    | some acc2 =>
      simp only [List.cons_append, linksLoop_cons, hs] at hok ⊢
      exact ih acc2 hok

/-- A failing step stops the anchor loop at once, discarding nothing that
was accumulated and processing nothing further. -/
theorem linksLoop_cons_fail (base : String) (h : String) (rest : List String)
    (acc : Links) (hf : linkStep base acc h = none) :
    linksLoop base (h :: rest) acc = (acc, true) := by
  unfold linksLoop
  rw [hf]

/-- C4.  The claim as amended: an unexpected error while walking the
anchors is caught, and the LinkSet returned is the one accumulated from
the anchors processed before the failing one, without the final
de-duplication pass (it is empty only when nothing was accumulated before
the error). -/
theorem c4_error_returns_partial_links (soup : Node) (base : String)
    (pre post : List String) (h : String)
    (hsplit : anchorHrefsN soup = pre ++ h :: post)
    (hok : (linksLoop base pre ⟨[], [], []⟩).2 = false)
    (hbad : linkStep base (linksLoop base pre ⟨[], [], []⟩).1 h = none) :
    extract_links soup base = (linksLoop base pre ⟨[], [], []⟩).1 := by
  unfold extract_links
  rw [hsplit, linksLoop_append_ok base pre (h :: post) ⟨[], [], []⟩ hok,
      linksLoop_cons_fail base h post _ hbad]
  rfl

/-- C4, counterexample to the claim as stated: on a page with one good
anchor followed by one whose href makes `urlparse` raise, the caught
error leaves the already accumulated link in the returned LinkSet, which
is therefore not empty. -/
theorem c4_nonempty_after_exception :
    (linksLoop "https://example.com" (anchorHrefsN c4soup) ⟨[], [], []⟩).2 = true ∧
    extract_links c4soup "https://example.com"
      = ⟨[], ["https://ok.com/x"], ["https://ok.com/x"]⟩ ∧
    extract_links c4soup "https://example.com" ≠ ⟨[], [], []⟩ := by
  refine ⟨by decide, by decide, by decide⟩

/-- C4, witness: the amended theorem applied to `c4soup`, whose anchor
walk fails at its second href. -/
theorem c4_witness :
    extract_links c4soup "https://example.com"
      = (linksLoop "https://example.com" ["https://ok.com/x"] ⟨[], [], []⟩).1 :=
  c4_error_returns_partial_links c4soup "https://example.com"
    ["https://ok.com/x"] [] "http://[bad" (by decide) (by decide) (by decide)

/-- The anchor loop ignores a list of hrefs that are all skipped. -/
theorem linksLoop_all_skipped (base : String) (hrefs : List String)
    (hall : ∀ h ∈ hrefs, skipHref (pyStrip h) = true) :
    ∀ acc, linksLoop base hrefs acc = (acc, false) := by
  induction hrefs with
  | nil => intro acc; rfl
  | cons h rest ih =>
    intro acc
    unfold linksLoop
    have hskip : skipHref (pyStrip h) = true := hall h (List.mem_cons_self h rest)
    have hs : linkStep base acc h = some acc := by
      unfold linkStep
      rw [if_pos hskip]
    rw [hs]
    exact ih (fun x hx => hall x (List.mem_cons_of_mem h hx)) acc

/-- C6: per-anchor processing.  A stripped href that is empty or starts
with `javascript:`, `mailto:`, `tel:`, `#` or `data:` contributes nothing;
any other href is resolved with `urljoin` against the base URL, appended
to `all`, and appended to `internal` exactly when its netloc equals the
base URL's netloc under string equality, to `external` otherwise.  A page
whose anchors are all skipped yields the empty LinkSet; the href `/about`
on the page `https://example.com/blog/post` resolves to
`https://example.com/about` and is classified internal. -/
theorem c6_link_resolution_classification :
    (∀ base links h, skipHref (pyStrip h) = true → linkStep base links h = some links) ∧
    (∀ base links h absolute_url base_domain link_domain,
      skipHref (pyStrip h) = false →
      urljoinE base (pyStrip h) = Except.ok absolute_url →
      urlparseNetlocE base = Except.ok base_domain →
      urlparseNetlocE absolute_url = Except.ok link_domain →
      linkStep base links h = some
        ⟨if link_domain = base_domain then links.internal ++ [absolute_url]
         else links.internal,
         if link_domain = base_domain then links.external
         else links.external ++ [absolute_url],
         links.all ++ [absolute_url]⟩) ∧
    (∀ soup base, (∀ h ∈ anchorHrefsN soup, skipHref (pyStrip h) = true) →
      extract_links soup base = ⟨[], [], []⟩) ∧
    extract_links c6doc "https://example.com/blog/post"
      = ⟨["https://example.com/about"], [], ["https://example.com/about"]⟩ ∧
    extract_links c6skipDoc "https://example.com" = ⟨[], [], []⟩ := by
  refine ⟨?_, ?_, ?_, by decide, by decide⟩
  · intro base links h hskip
    unfold linkStep
    rw [if_pos hskip]
  · intro base links h absolute_url base_domain link_domain hskip hj hb hl
    unfold linkStep
    rw [if_neg (by rw [hskip]; exact fun hc => nomatch hc)]
    simp only [hj, hb, hl]
    by_cases heq : link_domain = base_domain
    · rw [if_pos heq, if_pos heq, if_pos heq]
    · rw [if_neg heq, if_neg heq, if_neg heq]
  · intro soup base hall
    unfold extract_links
    rw [linksLoop_all_skipped base (anchorHrefsN soup) hall ⟨[], [], []⟩]
    rfl

/-- C6, witness: the per-anchor clauses of the theorem applied to the
skipped href `" #frag "` and to the resolved href `"/about"`. -/
theorem c6_witness :
    linkStep "https://example.com" ⟨[], [], []⟩ " #frag " = some ⟨[], [], []⟩ ∧
    linkStep "https://example.com/blog/post" ⟨[], [], []⟩ "/about"
      = some
        ⟨if "example.com" = "example.com" then
            ([] : List String) ++ ["https://example.com/about"]
         else [],
         if "example.com" = "example.com" then ([] : List String)
         else [] ++ ["https://example.com/about"],
         ([] : List String) ++ ["https://example.com/about"]⟩ :=
  ⟨c6_link_resolution_classification.1 "https://example.com" ⟨[], [], []⟩ " #frag "
    (by decide),
   c6_link_resolution_classification.2.1 "https://example.com/blog/post" ⟨[], [], []⟩
    "/about" "https://example.com/about" "example.com" "example.com"
    (by decide) rfl rfl rfl⟩
/-- C5.  The crawler's content root agrees with the spec's ordered rule
(`specContentRoot`): first match among `main`, `article`, `.content`,
`.main-content`, `#content`, `#main`, `.post-content`, `.entry-content`,
`.article-content`, else the `body` element, else the whole document.
After removal of script/style/nav/header/footer/aside/meta/link/noscript
elements, extraction returns the whitespace-normalized text of that root.
On a document with both a `main` and a `nav` element, the output is the
text of `main`; the `main` text occurs in it and the nav-only text does
not. -/
theorem c5_content_root_selection :
    (∀ soup : Node, contentRoot soup = specContentRoot soup) ∧
    (∀ (parse : String → Option Node) (html : String) (soup : Node),
      parse html = some soup →
      extract_body_content parse html
        = (cleanWhitespace (getText (specContentRoot (decomposeUnwantedN soup))),
           some (decomposeUnwantedN soup))) ∧
    extract_body_content c5parse "page" = ("MAINWORD", some c5cleaned) ∧
    "MAINWORD".data <:+: (extract_body_content c5parse "page").1.data ∧
    ¬ "NAVWORD".data <:+: (extract_body_content c5parse "page").1.data := by
  have hroot : ∀ soup : Node, contentRoot soup = specContentRoot soup := by
    intro soup
    unfold contentRoot specContentRoot
    simp only [selectors, findMainContent]
    rcases selectOneN "main" soup with _ | m
    rotate_left
    · rfl
    rcases selectOneN "article" soup with _ | m
    rotate_left
    · rfl
    rcases selectOneN ".content" soup with _ | m
    rotate_left
    · rfl
    rcases selectOneN ".main-content" soup with _ | m
    rotate_left
    · rfl
    rcases selectOneN "#content" soup with _ | m
    rotate_left
    · rfl
    rcases selectOneN "#main" soup with _ | m
    rotate_left
    · rfl
    rcases selectOneN ".post-content" soup with _ | m
    rotate_left
    · rfl
    rcases selectOneN ".entry-content" soup with _ | m
    rotate_left
    · rfl
    rcases selectOneN ".article-content" soup with _ | m
    rotate_left
    · rfl
    rfl
  refine ⟨hroot, ?_, by constructor, by decide, by decide⟩
  intro parse html soup hp
  unfold extract_body_content
  rw [hp, ← hroot (decomposeUnwantedN soup)]

/-- C5, witness: the extraction equation applied to the parse that yields
the main-and-nav document `c5doc`. -/
theorem c5_witness :
    extract_body_content c5parse "page"
      = (cleanWhitespace (getText (specContentRoot (decomposeUnwantedN c5doc))),
         some (decomposeUnwantedN c5doc)) :=
  c5_content_root_selection.2.1 c5parse "page" c5doc rfl
/-- C8.  For a non-empty input, the normalizer prepends `https://` exactly
when the input starts with neither `http://` nor `https://`, returns it
unchanged otherwise, and is idempotent. -/
theorem c8_normalize_prepend_iff_and_idempotent (url : String) (_hne : url ≠ "") :
    (pyStartsWith url "http://" = false → pyStartsWith url "https://" = false →
      normalize_url url = "https://" ++ url) ∧
    (pyStartsWith url "http://" = true ∨ pyStartsWith url "https://" = true →
      normalize_url url = url) ∧
    normalize_url (normalize_url url) = normalize_url url := by
  have key : ∀ u : String, pyStartsWith u "http://" = false →
      pyStartsWith u "https://" = false → normalize_url u = "https://" ++ u := by
    intro u h1 h2
    unfold normalize_url
    rw [h1, h2]
    rfl
  have key2 : ∀ u : String,
      pyStartsWith u "http://" = true ∨ pyStartsWith u "https://" = true →
      normalize_url u = u := by
    intro u h12
    unfold normalize_url
    rcases h12 with h1 | h1
    · rw [h1]
      rfl
    · rw [h1, Bool.or_true]
      rfl
  refine ⟨key url, key2 url, ?_⟩
  by_cases h1 : pyStartsWith url "http://" = true
  · rw [key2 url (Or.inl h1), key2 url (Or.inl h1)]
  · by_cases h2 : pyStartsWith url "https://" = true
    · rw [key2 url (Or.inr h2), key2 url (Or.inr h2)]
    · have h1f : pyStartsWith url "http://" = false := by
        revert h1
        cases pyStartsWith url "http://" <;> simp
      have h2f : pyStartsWith url "https://" = false := by
        revert h2
        cases pyStartsWith url "https://" <;> simp
      rw [key url h1f h2f]
      exact key2 ("https://" ++ url) (Or.inr (pyStartsWith_append "https://" url))

/-- C8, witness: the theorem at `"example.com"`, which gains a scheme once
and is then fixed. -/
theorem c8_witness :
    ("example.com" : String) ≠ "" ∧
    normalize_url "example.com" = "https://" ++ "example.com" ∧
    normalize_url (normalize_url "example.com") = normalize_url "example.com" :=
  ⟨by decide,
   (c8_normalize_prepend_iff_and_idempotent "example.com" (by decide)).1 rfl rfl,
   (c8_normalize_prepend_iff_and_idempotent "example.com" (by decide)).2.2⟩

/-- C10.  The scheme test is a case-sensitive literal check: every URL
that fails both literal tests gets `https://` prepended, even one whose
scheme is an upper-case spelling of `http`/`https`; in particular the
input `HTTP://example.com` is fetched (and reported) as
`https://HTTP://example.com`, which carries two schemes. -/
theorem c10_scheme_test_case_sensitive (url : String)
    (_hcase : pyStartsWith (String.mk (url.data.map Char.toLower)) "http://" = true ∨
      pyStartsWith (String.mk (url.data.map Char.toLower)) "https://" = true)
    (h1 : pyStartsWith url "http://" = false)
    (h2 : pyStartsWith url "https://" = false) :
    normalize_url url = "https://" ++ url ∧
    (crawl_url noFetch noParse "HTTP://example.com").url
      = "https://HTTP://example.com" := by
  constructor
  · unfold normalize_url
    rw [h1, h2]
    rfl
  · decide

/-- C10, witness: the theorem at `"HTTP://example.com"`. -/
theorem c10_witness :
    normalize_url "HTTP://example.com" = "https://" ++ "HTTP://example.com" ∧
    (crawl_url noFetch noParse "HTTP://example.com").url
      = "https://HTTP://example.com" :=
  c10_scheme_test_case_sensitive "HTTP://example.com" (Or.inl (by decide))
    (by decide) (by decide)

/-- C2.  The batch operation is a total function returning exactly one
result per input entry that is non-empty after stripping, in input order
(each crawled independently); and a URL whose fetch raises yields a
result with `success = false` (instead of aborting the batch). -/
theorem c2_batch_order_and_isolation (fetch : String → Except String FetchSuccess)
    (parse : String → Option Node) (urls : List String) :
    crawl_multiple_urls fetch parse urls
      = ((urls.map pyStrip).filter (fun u => u != "")).map (crawl_url fetch parse) ∧
    (∀ u e, fetch (normalize_url u) = Except.error e →
      (crawl_url fetch parse u).success = false) := by
  constructor
  · induction urls with
    | nil => rfl
    | cons u rest ih =>
      by_cases h : pyStrip u = ""
      · simp [crawl_multiple_urls, h, ih]
      · simp [crawl_multiple_urls, h, ih]
  · intro u e he
    simp [crawl_url, he]

/-- C2, witness: a three-entry batch (one blank) with an always-failing
fetch yields two failure results, in order. -/
theorem c2_witness :
    crawl_multiple_urls noFetch noParse [" a.com ", "", "b.com"]
      = [crawl_url noFetch noParse "a.com", crawl_url noFetch noParse "b.com"] ∧
    (crawl_url noFetch noParse "a.com").success = false := by
  constructor
  · rw [(c2_batch_order_and_isolation noFetch noParse [" a.com ", "", "b.com"]).1]
    rfl
  · exact (c2_batch_order_and_isolation noFetch noParse []).2 "a.com"
      "connection refused" rfl

/-- C7.  A successful result populates status_code, content, content_type,
encoding, content_length, links and the three counts, with
`content_length` the character count of `content` and each count the
length of the matching sequence; a failed result populates only `url` and
`error`, all other fields absent. -/
theorem c7_result_fields (fetch : String → Except String FetchSuccess)
    (parse : String → Option Node) (u : String) :
    ((crawl_url fetch parse u).success = true →
      (crawl_url fetch parse u).status_code.isSome = true ∧
      (crawl_url fetch parse u).content.isSome = true ∧
      (crawl_url fetch parse u).content_type.isSome = true ∧
      (crawl_url fetch parse u).encoding.isSome = true ∧
      (crawl_url fetch parse u).links.isSome = true ∧
      (crawl_url fetch parse u).content_length
        = (crawl_url fetch parse u).content.map String.length ∧
      (crawl_url fetch parse u).internal_links_count
        = (crawl_url fetch parse u).links.map (fun L => L.internal.length) ∧
      (crawl_url fetch parse u).external_links_count
        = (crawl_url fetch parse u).links.map (fun L => L.external.length) ∧
      (crawl_url fetch parse u).total_links_count
        = (crawl_url fetch parse u).links.map (fun L => L.all.length)) ∧
    ((crawl_url fetch parse u).success = false →
      (crawl_url fetch parse u).error.isSome = true ∧
      (crawl_url fetch parse u).status_code = none ∧
      (crawl_url fetch parse u).content = none ∧
      (crawl_url fetch parse u).content_type = none ∧
      (crawl_url fetch parse u).encoding = none ∧
      (crawl_url fetch parse u).content_length = none ∧
      (crawl_url fetch parse u).links = none ∧
      (crawl_url fetch parse u).internal_links_count = none ∧
      (crawl_url fetch parse u).external_links_count = none ∧
      (crawl_url fetch parse u).total_links_count = none) := by
  cases hf : fetch (normalize_url u) with
  | error e =>
    constructor
    · intro hs
      have hx : (crawl_url fetch parse u).success = false := by simp [crawl_url, hf]
      rw [hs] at hx
      exact nomatch hx
    · intro _
      refine ⟨?_, ?_, ?_, ?_, ?_, ?_, ?_, ?_, ?_, ?_⟩ <;> simp [crawl_url, hf]
  | ok response =>
    constructor
    · intro _
      refine ⟨?_, ?_, ?_, ?_, ?_, ?_, ?_, ?_, ?_⟩ <;> simp [crawl_url, hf]
    · intro hs
      have hx : (crawl_url fetch parse u).success = true := by simp [crawl_url, hf]
      rw [hs] at hx
      exact nomatch hx

/-- C7, witness: both halves of the theorem at concrete crawls — a
successful fetch whose parse fails, and a failing fetch. -/
theorem c7_witness :
    ((crawl_url okFetch noParse "x.com").status_code.isSome = true ∧
     (crawl_url okFetch noParse "x.com").content.isSome = true ∧
     (crawl_url okFetch noParse "x.com").content_type.isSome = true ∧
     (crawl_url okFetch noParse "x.com").encoding.isSome = true ∧
     (crawl_url okFetch noParse "x.com").links.isSome = true ∧
     (crawl_url okFetch noParse "x.com").content_length
       = (crawl_url okFetch noParse "x.com").content.map String.length ∧
     (crawl_url okFetch noParse "x.com").internal_links_count
       = (crawl_url okFetch noParse "x.com").links.map (fun L => L.internal.length) ∧
     (crawl_url okFetch noParse "x.com").external_links_count
       = (crawl_url okFetch noParse "x.com").links.map (fun L => L.external.length) ∧
     (crawl_url okFetch noParse "x.com").total_links_count
       = (crawl_url okFetch noParse "x.com").links.map (fun L => L.all.length)) ∧
    ((crawl_url noFetch noParse "x.com").error.isSome = true ∧
     (crawl_url noFetch noParse "x.com").status_code = none ∧
     (crawl_url noFetch noParse "x.com").content = none ∧
     (crawl_url noFetch noParse "x.com").content_type = none ∧
     (crawl_url noFetch noParse "x.com").encoding = none ∧
     (crawl_url noFetch noParse "x.com").content_length = none ∧
     (crawl_url noFetch noParse "x.com").links = none ∧
     (crawl_url noFetch noParse "x.com").internal_links_count = none ∧
     (crawl_url noFetch noParse "x.com").external_links_count = none ∧
     (crawl_url noFetch noParse "x.com").total_links_count = none) :=
  ⟨(c7_result_fields okFetch noParse "x.com").1 rfl,
   (c7_result_fields noFetch noParse "x.com").2 rfl⟩

/-- C9.  When the fetch succeeds but parsing throws, the crawl still
returns a success result whose content is the raw body, whose LinkSet is
empty (link extraction skipped: no soup), and whose error field is absent. -/
theorem c9_parse_failure_degrades (fetch : String → Except String FetchSuccess)
    (parse : String → Option Node) (url : String) (response : FetchSuccess)
    (hf : fetch (normalize_url url) = Except.ok response)
    (hp : parse response.text = none) :
    crawl_url fetch parse url =
      { url := normalize_url url
        success := true
        status_code := some response.status_code
        content := some response.text
        content_type := some response.content_type
        encoding := some response.encoding
        content_length := some response.text.length
        links := some ⟨[], [], []⟩
        internal_links_count := some 0
        external_links_count := some 0
        total_links_count := some 0
        error := none } := by
  simp [crawl_url, hf, extract_body_content, hp]

/-- C9, witness: a fetch of `okResp` with a raising parse yields the raw
body as content, empty links and no error. -/
theorem c9_witness :
    crawl_url okFetch noParse "example.com" =
      { url := "https://example.com"
        success := true
        status_code := some 200
        content := some okResp.text
        content_type := some okResp.content_type
        encoding := some "utf-8"
        content_length := some okResp.text.length
        links := some ⟨[], [], []⟩
        internal_links_count := some 0
        external_links_count := some 0
        total_links_count := some 0
        error := none } :=
  c9_parse_failure_degrades okFetch noParse "example.com" okResp rfl rfl

/-- C1, evaluation of the code as it stands: `crawl_url` (and hence
`crawl_multiple_urls`, which takes no mode argument) always returns the
cleaned BodyOnly extraction as `content` — for a parseable page it is the
cleaned text, not the raw response body — and `CrawlResult` records no
mode. -/
theorem c1_crawler_is_always_body_only :
    (crawl_url c1fetch c1parse "https://example.com").content = some "Hi" ∧
    "Hi" ≠ c1html ∧
    (crawl_url c1fetch c1parse "https://example.com").content ≠ some c1html := by
  refine ⟨by decide, by decide, by decide⟩

end Crawler
